import Mathlib

/-!
A shallow embedding of the oRPC shield authorization engine, translated from
the TypeScript source (types.ts, rule.ts, operators.ts, shield.ts), together
with theorems settling the specification claims about it.

Modelling conventions:
- `RuleResult = boolean | string | Error` becomes an inductive with three
  constructors; an `Error` object is represented by its message string.
- Asynchronous functions are modelled by their eventual value; a promise
  rejection (a throw) is an `Except.error` value.
- A thrown JavaScript value is either an `Error` object (carrying its
  message) or some other value, carried as its `String(...)` coercion.
- Evaluation order and short-circuiting of the sequential combinators are
  rendered as suffix independence: the result is determined by the rules up
  to the deciding one, whatever rules follow.
-/

namespace OrpcShield

/-- The procedure path from types.ts: an ordered list of string segments. -/
abbrev Path := List String

/-- `RuleResult = boolean | string | Error` from types.ts. An `Error` value
is represented by its message. -/
inductive RuleResult where
  | bool (b : Bool)
  | str (s : String)
  | err (msg : String)
deriving DecidableEq

/-- JavaScript truthiness of a `RuleResult`: `false` and the empty string are
falsy; every `Error` object is truthy. -/
def RuleResult.truthy : RuleResult → Bool
  | .bool b => b
  | .str s => !s.isEmpty
  | .err _ => true

variable {C I A : Type}

/-- The parameter record `{ctx, path, input}` passed to every `resolve` call. -/
structure RuleParams (C I : Type) where
  ctx : C
  path : Path
  input : I

/-- The observable behaviour of an `IRule`: its `resolve` function. Rules
built by the `Rule` class and the combinators never reject (see
`ruleResolve`), so a rule maps parameters to a `RuleResult`. -/
abbrev RuleFn (C I : Type) := RuleParams C I → RuleResult

/-- A JavaScript value thrown by a user decision function: an `Error` object
carrying its message, or any other value carried as its string coercion. -/
inductive ResolverThrown where
  | errObj (msg : String)
  | nonErrVal (coerced : String)
deriving DecidableEq

/-- The message `Rule.resolve` extracts from a thrown value: the message of a
thrown `Error`, otherwise `String(error)`. -/
def ResolverThrown.message : ResolverThrown → String
  | .errObj m => m
  | .nonErrVal s => s

/-- A user-supplied decision function (`RuleResolver` from types.ts): it may
return a result or throw. -/
abbrev Resolver (C I : Type) := RuleParams C I → Except ResolverThrown RuleResult

/-- `Rule.resolve` from rule.ts: run the resolver inside try/catch; a thrown
`Error` is returned as the result itself, any other thrown value is wrapped
as `new Error(String(error))`. -/
def ruleResolve (resolver : Resolver C I) (p : RuleParams C I) : RuleResult :=
  match resolver p with
  | .ok result => result
  | .error (.errObj m) => .err m
  | .error (.nonErrVal s) => .err s

/-- The built-in `allow` rule from rule.ts: always `true`. -/
def allow : RuleFn C I := fun _ => .bool true

/-- The built-in `deny` rule from rule.ts: always `new Error('Access denied')`. -/
def deny : RuleFn C I := fun _ => .err "Access denied"

/-- `RuleAnd.resolve` from operators.ts: evaluate the rules in order and
return the first result that is not `true`; `true` when the list is
exhausted. -/
def ruleAndResolve (rules : List (RuleFn C I)) (p : RuleParams C I) : RuleResult :=
  match rules with
  | [] => .bool true
  | r :: rest => if r p = .bool true then ruleAndResolve rest p else r p

/-- `RuleChain.resolve` from operators.ts: the same loop as `RuleAnd.resolve`
(evaluate in sequence, return the first non-`true` result). -/
def ruleChainResolve (rules : List (RuleFn C I)) (p : RuleParams C I) : RuleResult :=
  match rules with
  | [] => .bool true
  | r :: rest => if r p = .bool true then ruleChainResolve rest p else r p

/-- The final expression of `RuleOr.resolve`:
`errors[0] || new Error('All rules failed')`. A falsy first entry (`false` or
the empty string), like an empty list, yields the generic error. -/
def firstErrorOrGeneric (errors : List RuleResult) : RuleResult :=
  match errors with
  | [] => .err "All rules failed"
  | e :: _ => if e.truthy then e else .err "All rules failed"

/-- The loop of `RuleOr.resolve` from operators.ts, carrying the `errors`
array accumulated so far: return `true` at the first rule that resolves to
`true`, push every other result, and finish with
`errors[0] || new Error('All rules failed')`. -/
def ruleOrGo (rules : List (RuleFn C I)) (p : RuleParams C I)
    (errors : List RuleResult) : RuleResult :=
  match rules with
  | [] => firstErrorOrGeneric errors
  | r :: rest =>
    if r p = .bool true then .bool true else ruleOrGo rest p (errors ++ [r p])

/-- `RuleOr.resolve` from operators.ts: the loop above started with an empty
`errors` array. -/
def ruleOrResolve (rules : List (RuleFn C I)) (p : RuleParams C I) : RuleResult :=
  ruleOrGo rules p []

/-- `RuleNot.resolve` from operators.ts: evaluate the single wrapped rule; a
`true` result becomes `new Error('Rule should not pass')`, anything else
becomes `true`. -/
def ruleNotResolve (r : RuleFn C I) (p : RuleParams C I) : RuleResult :=
  if r p = .bool true then .err "Rule should not pass" else .bool true

/-- Claim C5: `Rule.resolve` never propagates a throw. A resolver value that
is returned normally is passed on unchanged, and a thrown value is converted
to an error-shaped result carrying the thrown message (the message of a
thrown `Error`, or the string coercion of any other thrown value). -/
theorem ruleResolve_never_throws (resolver : Resolver C I) (p : RuleParams C I) :
    (∀ result, resolver p = .ok result → ruleResolve resolver p = result) ∧
    (∀ t, resolver p = .error t → ruleResolve resolver p = .err t.message) := by
  constructor
  · intro result h
    simp [ruleResolve, h]
  · intro t h
    cases t <;> simp [ruleResolve, h, ResolverThrown.message]

/-- Claim C5 witness: a resolver that throws the non-`Error` value coerced to
`"boom"` resolves to the error-shaped result with message `"boom"`. -/
theorem ruleResolve_never_throws_witness :
    ruleResolve (C := Unit) (I := Unit)
      (fun _ => .error (.nonErrVal "boom")) ⟨(), [], ()⟩ = .err "boom" :=
  (ruleResolve_never_throws (fun _ => .error (.nonErrVal "boom")) ⟨(), [], ()⟩).2
    (.nonErrVal "boom") rfl

/-- Claim C6: `And` evaluates its rules strictly in argument order. If every
rule before `r` resolves to `true` and `r` resolves to a non-`true` result,
the combined rule returns exactly the result of `r`, whatever rules follow
(so no later rule influences the outcome); and when the list is empty or
every rule resolves to `true`, the combined rule resolves to `true`. -/
theorem and_short_circuit_first_failure (p : RuleParams C I) :
    (∀ (pre : List (RuleFn C I)) (r : RuleFn C I) (suf : List (RuleFn C I)),
      (∀ q ∈ pre, q p = .bool true) → r p ≠ .bool true →
      ruleAndResolve (pre ++ r :: suf) p = r p) ∧
    (∀ rules : List (RuleFn C I), (∀ q ∈ rules, q p = .bool true) →
      ruleAndResolve rules p = .bool true) := by
  constructor
  · intro pre
    induction pre with
    | nil =>
      intro r suf hpre hr
      simp [ruleAndResolve, hr]
    | cons q rest ih =>
      intro r suf hpre hr
      have hq : q p = .bool true := hpre q (by simp)
      simp only [List.cons_append, ruleAndResolve, hq, if_pos]
      exact ih r suf (fun x hx => hpre x (by simp [hx])) hr
  · intro rules h
    induction rules with
    | nil => rfl
    | cons q rest ih =>
      have hq : q p = .bool true := h q (by simp)
      simp only [ruleAndResolve, hq, if_pos]
      exact ih (fun x hx => h x (by simp [hx]))

/-- Claim C6 witness: `And(allow, deny, allow)` returns the `deny` result
(`Error('Access denied')`), the first non-`true` result in order. -/
theorem and_short_circuit_first_failure_witness :
    ruleAndResolve (C := Unit) (I := Unit) [allow, deny, allow] ⟨(), [], ()⟩ =
      .err "Access denied" := by
  have h := (and_short_circuit_first_failure (⟨(), [], ()⟩ : RuleParams Unit Unit)).1
    [allow] deny [allow]
    (by intro q hq; simp at hq; subst hq; rfl)
    (by decide)
  simpa [deny] using h

/-- Claim C7: `Chain` and `And` have identical decision semantics: for every
rule list and every parameters, `RuleChain.resolve` returns exactly the same
result as `RuleAnd.resolve`. -/
theorem chainResolve_eq_andResolve (rules : List (RuleFn C I)) (p : RuleParams C I) :
    ruleChainResolve rules p = ruleAndResolve rules p := by
  induction rules with
  | nil => rfl
  | cons r rest ih =>
    simp only [ruleChainResolve, ruleAndResolve]
    rw [ih]

/-- Claim C9 counterexample: when the wrapped rule resolves to `true`, `Not`
yields the error message `"Rule should not pass"` (capital R), so the claimed
fixed denial message `"rule should not pass"` is not what the code produces. -/
theorem not_fixed_message_counterexample :
    ruleNotResolve (C := Unit) (I := Unit) allow ⟨(), [], ()⟩ =
      .err "Rule should not pass" ∧
    ruleNotResolve (C := Unit) (I := Unit) allow ⟨(), [], ()⟩ ≠
      .err "rule should not pass" := by
  constructor <;> decide

/-- Claim C9 amended: `Not(r)` evaluates `r` once; if `r` resolves to `true`,
`Not` yields the fixed denial `Error('Rule should not pass')`; any other
result of `r` (false, string, or error) makes `Not` yield `true` — so `Not`
never reproduces the wrapped rule's own denial message. -/
theorem not_inverts_with_fixed_message (r : RuleFn C I) (p : RuleParams C I) :
    (r p = .bool true → ruleNotResolve r p = .err "Rule should not pass") ∧
    (r p ≠ .bool true → ruleNotResolve r p = .bool true) := by
  constructor <;> intro h <;> simp [ruleNotResolve, h]

/-- Claim C9 witness: `Not(deny)` resolves to `true`, and `Not(allow)`
resolves to the fixed denial. -/
theorem not_inverts_with_fixed_message_witness :
    ruleNotResolve (C := Unit) (I := Unit) deny ⟨(), [], ()⟩ = .bool true ∧
    ruleNotResolve (C := Unit) (I := Unit) allow ⟨(), [], ()⟩ =
      .err "Rule should not pass" :=
  ⟨(not_inverts_with_fixed_message deny ⟨(), [], ()⟩).2 (by decide),
   (not_inverts_with_fixed_message allow ⟨(), [], ()⟩).1 rfl⟩

/-- Claim C10: double negation preserves the boolean decision but erases the
message: `Not(Not(r))` resolves to `true` exactly when `r` resolves to
`true`, and to the error-shaped denial `Error('Rule should not pass')`
exactly when `r` resolves to any non-`true` result, whatever denial message
`r` itself carried. -/
theorem notNot_preserves_decision_erases_message (r : RuleFn C I) (p : RuleParams C I) :
    (ruleNotResolve (fun q => ruleNotResolve r q) p = .bool true ↔ r p = .bool true) ∧
    (ruleNotResolve (fun q => ruleNotResolve r q) p = .err "Rule should not pass" ↔
      r p ≠ .bool true) := by
  by_cases h : r p = .bool true <;> simp [ruleNotResolve, h]

/-- Helper: when every rule in the list resolves to a non-`true` result, the
`Or` loop returns `errors[0] || generic` over the accumulated results. -/
theorem ruleOrGo_all_fail (p : RuleParams C I) (rules : List (RuleFn C I)) :
    ∀ acc : List RuleResult, (∀ q ∈ rules, q p ≠ .bool true) →
      ruleOrGo rules p acc = firstErrorOrGeneric (acc ++ rules.map (fun q => q p)) := by
  induction rules with
  | nil =>
    intro acc h
    simp [ruleOrGo]
  | cons r rest ih =>
    intro acc h
    have hr : r p ≠ .bool true := h r (by simp)
    simp only [ruleOrGo, List.map_cons, if_neg hr]
    rw [ih (acc ++ [r p]) (fun x hx => h x (by simp [hx]))]
    simp

/-- Claim C1 counterexample: `Or` of a single rule resolving to `false`
returns the generic `Error('All rules failed')`, not the first failing
rule's result (`false`): the final `errors[0] || ...` expression discards a
falsy first failure. -/
theorem or_falsy_first_failure_counterexample :
    ruleOrResolve (C := Unit) (I := Unit) [fun _ => .bool false] ⟨(), [], ()⟩ =
      .err "All rules failed" ∧
    RuleResult.err "All rules failed" ≠ .bool false := by
  constructor <;> decide

/-- Claim C1 amended: `Or` evaluates rules strictly in argument order and
returns `true` at the first rule that resolves to `true`, whatever rules
follow. When every rule fails, it returns the first failing result in
evaluation order if that result is truthy (an error or a non-empty string);
when the first failing result is falsy (`false` or the empty string), or the
list is empty, it returns the generic `Error('All rules failed')`, which is
distinct from any individual denial produced as `false` or a reason string. -/
theorem or_short_circuit_and_first_truthy_failure (p : RuleParams C I) :
    (∀ (pre : List (RuleFn C I)) (r : RuleFn C I) (suf : List (RuleFn C I)),
      (∀ q ∈ pre, q p ≠ .bool true) → r p = .bool true →
      ruleOrResolve (pre ++ r :: suf) p = .bool true) ∧
    (∀ rules : List (RuleFn C I), (∀ q ∈ rules, q p ≠ .bool true) →
      ruleOrResolve rules p = firstErrorOrGeneric (rules.map (fun q => q p))) := by
  constructor
  · intro pre
    have go : ∀ (r : RuleFn C I) (suf : List (RuleFn C I)) (acc : List RuleResult),
        (∀ q ∈ pre, q p ≠ .bool true) → r p = .bool true →
        ruleOrGo (pre ++ r :: suf) p acc = .bool true := by
      induction pre with
      | nil =>
        intro r suf acc hpre hr
        simp [ruleOrGo, hr]
      | cons q rest ih =>
        intro r suf acc hpre hr
        have hq : q p ≠ .bool true := hpre q (by simp)
        simp only [List.cons_append, ruleOrGo, if_neg hq]
        exact ih r suf (acc ++ [q p]) (fun x hx => hpre x (by simp [hx])) hr
    intro r suf hpre hr
    exact go r suf [] hpre hr
  · intro rules h
    simpa using ruleOrGo_all_fail p rules [] h

/-- Claim C1 witness: `Or(deny)` fails with the first failing result, the
truthy `Error('Access denied')`; `Or()` of the empty list yields the generic
`Error('All rules failed')`. -/
theorem or_short_circuit_and_first_truthy_failure_witness :
    ruleOrResolve (C := Unit) (I := Unit) [deny] ⟨(), [], ()⟩ = .err "Access denied" ∧
    ruleOrResolve (C := Unit) (I := Unit) [] ⟨(), [], ()⟩ = .err "All rules failed" := by
  have h1 := (or_short_circuit_and_first_truthy_failure
      (⟨(), [], ()⟩ : RuleParams Unit Unit)).2 [deny]
    (by intro q hq; simp at hq; subst hq; decide)
  have h2 := (or_short_circuit_and_first_truthy_failure
      (⟨(), [], ()⟩ : RuleParams Unit Unit)).2 []
    (by intro q hq; simp at hq)
  constructor
  · simpa [deny, firstErrorOrGeneric, RuleResult.truthy] using h1
  · simpa [firstErrorOrGeneric] using h2

/-- A node of the rule tree (`IRules` from types.ts): an object mapping path
segments to a rule or a nested tree. A leaf is a rule (an object exposing
`resolve`); entries model the object's own enumerable properties. -/
inductive RuleNode (C I : Type) where
  | rule (r : RuleFn C I)
  | tree (entries : List (String × RuleNode C I))

/-- JavaScript property lookup on an object literal: the value under the
first matching key, if any. -/
def lookupEntry : List (String × RuleNode C I) → String → Option (RuleNode C I)
  | [], _ => none
  | (k, v) :: rest, seg => if k = seg then some v else lookupEntry rest seg

/-- `current[segment]` in `findRuleInTree`: index a tree node by a key. A
rule is an opaque leaf at the tree level, so indexing into it yields nothing
(`undefined`). -/
def RuleNode.index : RuleNode C I → String → Option (RuleNode C I)
  | .tree entries, seg => lookupEntry entries seg
  | .rule _, _ => none

/-- The loop of `findRuleInTree` from shield.ts: walk `current` through the
path segments; an absent (`undefined`) or non-traversable value propagates
as `none` and makes resolution fail. -/
def walk (cur : Option (RuleNode C I)) : Path → Option (RuleNode C I)
  | [] => cur
  | seg :: rest =>
    match cur with
    | none => none
    | some n => walk (n.index seg) rest

/-- `findRuleInTree` from shield.ts: walk the whole path, then succeed only
if the node reached is a rule (the final `'resolve' in current` check). -/
def findRuleInTree (rules : RuleNode C I) (path : Path) : Option (RuleFn C I) :=
  match walk (some rules) path with
  | some (.rule r) => some r
  | _ => none

/-- A tree holding exactly one rule `r` at path `p`: each segment opens one
singleton object, and the last maps to the rule itself. -/
def buildTree (p : Path) (r : RuleFn C I) : RuleNode C I :=
  match p with
  | [] => .rule r
  | seg :: rest => .tree [(seg, buildTree rest r)]

/-- Helper: walking an appended path walks the two parts in sequence. -/
theorem walk_append (cur : Option (RuleNode C I)) (xs ys : Path) :
    walk cur (xs ++ ys) = walk (walk cur xs) ys := by
  induction xs generalizing cur with
  | nil => rfl
  | cons s rest ih =>
    cases cur with
    | none =>
      cases ys <;> rfl
    | some n =>
      simp only [List.cons_append, walk]
      exact ih (n.index s)

/-- Helper: walking the exact path of a singleton tree reaches its rule leaf. -/
theorem walk_buildTree (r : RuleFn C I) : ∀ p : Path,
    walk (some (buildTree p r)) p = some (.rule r) := by
  intro p
  induction p with
  | nil => rfl
  | cons s rest ih =>
    simp only [buildTree, walk, RuleNode.index, lookupEntry, if_pos]
    exact ih

/-- Helper: a strict prefix of the singleton tree's path reaches a sub-tree,
so rule resolution fails there. -/
theorem findRuleInTree_strict_prefix (r : RuleFn C I) :
    ∀ (q : Path) (d : String) (rest : Path),
      findRuleInTree (buildTree (q ++ d :: rest) r) q = none := by
  intro q
  induction q with
  | nil =>
    intro d rest
    rfl
  | cons s q2 ih =>
    intro d rest
    simp only [List.cons_append, buildTree, findRuleInTree, walk, RuleNode.index,
      lookupEntry, if_pos]
    exact ih d rest

/-- Claim C2: `findRuleInTree` succeeds exactly when consuming every path
segment lands on a rule leaf, and the resolver round-trips: for a tree built
mapping a non-empty path `p` to rule `r`, looking up `p` yields `r`; looking
up `p` extended by any extra segment is not-found (indexing past a rule leaf
fails); and looking up any strict prefix of `p` is not-found (the node
reached is a sub-tree, not a rule). -/
theorem findRuleInTree_round_trip (p : Path) (r : RuleFn C I) (hp : p ≠ []) :
    (∀ (t : RuleNode C I) (path : Path) (f : RuleFn C I),
      findRuleInTree t path = some f ↔ walk (some t) path = some (.rule f)) ∧
    findRuleInTree (buildTree p r) p = some r ∧
    (∀ e, findRuleInTree (buildTree p r) (p ++ [e]) = none) ∧
    (∀ q : Path, q <+: p → q ≠ p → findRuleInTree (buildTree p r) q = none) := by
  refine ⟨?_, ?_, ?_, ?_⟩
  · intro t path f
    unfold findRuleInTree
    cases hw : walk (some t) path with
    | none => simp
    | some n =>
      cases n with
      | rule g => simp [RuleNode.rule.injEq]
      | tree es => simp
  · unfold findRuleInTree
    rw [walk_buildTree]
  · intro e
    unfold findRuleInTree
    rw [walk_append, walk_buildTree]
    rfl
  · intro q hq hne
    obtain ⟨tail, htail⟩ := hq
    cases tail with
    | nil => exact absurd (by simpa using htail) hne
    | cons d rest =>
      subst htail
      exact findRuleInTree_strict_prefix r q d rest

/-- Claim C2 witness: the round trip at the concrete path
`["users", "list"]` mapped to `allow`: exact lookup finds the rule, one extra
segment and the strict prefix `["users"]` are both not-found. -/
theorem findRuleInTree_round_trip_witness :
    findRuleInTree (buildTree ["users", "list"] (allow : RuleFn Unit Unit))
      ["users", "list"] = some allow ∧
    findRuleInTree (buildTree ["users", "list"] (allow : RuleFn Unit Unit))
      ["users", "list", "extra"] = none ∧
    findRuleInTree (buildTree ["users", "list"] (allow : RuleFn Unit Unit))
      ["users"] = none := by
  have h := findRuleInTree_round_trip ["users", "list"] (allow : RuleFn Unit Unit)
    (by simp)
  exact ⟨h.2.1, h.2.2.1 "extra", h.2.2.2 ["users"] ⟨["list"], rfl⟩ (by simp)⟩

/-- `ShieldError` from shield.ts: an error carrying a message and the
originating request path. -/
structure ShieldErr where
  message : String
  path : Path
deriving DecidableEq

/-- `processRuleResult` from shield.ts: `true` allows access; a string raises
`ShieldError(result, path)`; an error raises `ShieldError(result.message,
path)`; `false` raises `ShieldError('Access denied', path)`. -/
def processRuleResult (result : RuleResult) (path : Path) : Except ShieldErr Unit :=
  if result = .bool true then .ok ()
  else
    match result with
    | .str s => .error ⟨s, path⟩
    | .err m => .error ⟨m, path⟩
    | _ => .error ⟨"Access denied", path⟩

/-- A JavaScript value thrown inside the middleware's try block (by
`processRuleResult` or by the continuation `next`): a `ShieldError`, another
`Error` object, or a non-`Error` value carried as its string coercion. -/
inductive Thrown where
  | shieldError (msg : String) (path : Path)
  | errObj (msg : String)
  | nonErrVal (coerced : String)
deriving DecidableEq

/-- `error instanceof Error` for a thrown value (`ShieldError` extends
`Error`). -/
def Thrown.isError : Thrown → Bool
  | .shieldError _ _ => true
  | .errObj _ => true
  | .nonErrVal _ => false

/-- `error instanceof ShieldError` for a thrown value. -/
def Thrown.isShieldError : Thrown → Bool
  | .shieldError _ _ => true
  | _ => false

/-- `error instanceof Error ? error.message : String(error)`. -/
def Thrown.message : Thrown → String
  | .shieldError m _ => m
  | .errObj m => m
  | .nonErrVal s => s

/-- An error raised by the shield middleware to its caller: a `ShieldError`
(message and path), an `ORPCError` built as `new ORPCError(code, {message})`
(code and message, no path), or a continuation error re-raised unchanged. -/
inductive Raised where
  | shieldError (msg : String) (path : Path)
  | orpcError (code : String) (msg : String)
  | passedThrough (t : Thrown)
deriving DecidableEq

/-- The path information carried by a raised error, if any: a `ShieldError`
carries its path; an `ORPCError` is constructed with `{message}` only, so it
carries none. -/
def Raised.pathInfo : Raised → Option Path
  | .shieldError _ p => some p
  | .orpcError _ _ => none
  | .passedThrough (.shieldError _ p) => some p
  | .passedThrough _ => none

/-- `ShieldOptions` with the defaults `shield` destructures:
`fallbackRule = allow`, `allowExternalErrors = true`, `denyErrorCode`
optional. The `debug` flag only logs and is not modelled. -/
structure ShieldConfig (C I : Type) where
  fallbackRule : RuleFn C I := allow
  allowExternalErrors : Bool := true
  denyErrorCode : Option String := none

/-- The `catch` block of `shieldMiddleware` from shield.ts: a `ShieldError`
is re-raised (or mapped to `ORPCError(denyErrorCode, {message})` when that
code is configured); any other `Error` is re-raised unchanged when
`allowExternalErrors` is set; everything else is converted, using the
middleware's request path, to a `ShieldError` or a configured `ORPCError`. -/
def handleCatch (cfg : ShieldConfig C I) (path : Path) (t : Thrown) : Raised :=
  match t with
  | .shieldError m p =>
    match cfg.denyErrorCode with
    | some code => .orpcError code m
    | none => .shieldError m p
  | t =>
    if cfg.allowExternalErrors && t.isError then .passedThrough t
    else
      match cfg.denyErrorCode with
      | some code => .orpcError code t.message
      | none => .shieldError t.message path

/-- `shieldMiddleware` from shield.ts: find the governing rule (falling back
to `cfg.fallbackRule` when the path has none), evaluate it, interpret the
result with `processRuleResult`, and on success run the continuation `next`,
returning its value unchanged; every value thrown inside the try block goes
through the `catch` block. -/
def shieldMiddleware (cfg : ShieldConfig C I) (rules : RuleNode C I)
    (p : RuleParams C I) (next : Except Thrown A) : Except Raised A :=
  match processRuleResult (((findRuleInTree rules p.path).getD cfg.fallbackRule) p)
      p.path with
  | .error se => .error (handleCatch cfg p.path (.shieldError se.message se.path))
  | .ok _ =>
    match next with
    | .ok a => .ok a
    | .error t => .error (handleCatch cfg p.path t)

/-- Claim C3 counterexample: with `denyErrorCode` configured, a denial is
raised as `ORPCError(code, {message})`, which carries no path: at the
concrete denied request below, the raised error has no path information,
while the claim promises the wrapped error still carries the originating
path. -/
theorem denyErrorCode_drops_path_counterexample :
    shieldMiddleware (C := Unit) (I := Unit) (A := Unit)
      { fallbackRule := deny, denyErrorCode := some "FORBIDDEN" }
      (.tree []) ⟨(), ["users"], ()⟩ (.ok ()) =
      .error (.orpcError "FORBIDDEN" "Access denied") ∧
    Raised.pathInfo (.orpcError "FORBIDDEN" "Access denied") = none := by
  constructor <;> rfl

/-- Claim C3 amended: every denied request raises an error carrying the
denial's message; when `denyErrorCode` is unset, the raised error is the
`ShieldError` also carrying the originating path; when `denyErrorCode` is
set, the denial is wrapped as a protocol-level `ORPCError` tagged with the
configured code and carrying the message, but not the path. -/
theorem denial_error_shape (cfg : ShieldConfig C I) (rules : RuleNode C I)
    (p : RuleParams C I) (next : Except Thrown A) (se : ShieldErr)
    (h : processRuleResult (((findRuleInTree rules p.path).getD cfg.fallbackRule) p)
      p.path = .error se) :
    (cfg.denyErrorCode = none →
      shieldMiddleware cfg rules p next = .error (.shieldError se.message se.path)) ∧
    (∀ code, cfg.denyErrorCode = some code →
      shieldMiddleware cfg rules p next = .error (.orpcError code se.message) ∧
      Raised.pathInfo (.orpcError code se.message) = none) := by
  have hm : shieldMiddleware cfg rules p next =
      .error (handleCatch cfg p.path (.shieldError se.message se.path)) := by
    unfold shieldMiddleware
    rw [h]
  constructor
  · intro hc
    rw [hm]
    simp [handleCatch, hc]
  · intro code hc
    rw [hm]
    simp [handleCatch, hc, Raised.pathInfo]

/-- Claim C3 witness: a denied request with `denyErrorCode` unset raises the
`ShieldError` carrying both the default message and the request path. -/
theorem denial_error_shape_witness :
    shieldMiddleware (C := Unit) (I := Unit) (A := Unit)
      { fallbackRule := deny } (.tree []) ⟨(), ["posts"], ()⟩ (.ok ()) =
      .error (.shieldError "Access denied" ["posts"]) :=
  (denial_error_shape { fallbackRule := deny } (.tree []) ⟨(), ["posts"], ()⟩
    (.ok ()) ⟨"Access denied", ["posts"]⟩ rfl).1 rfl

/-- Claim C4 counterexample: with `allowExternalErrors = false` and
`denyErrorCode` configured, an `Error('boom')` raised by the continuation is
surfaced as `ORPCError(code, {message})`: at the concrete request below, the
raised error carries no path information, while the claim promises a
denial-shaped error carrying the message and the request path. -/
theorem continuation_error_no_path_counterexample :
    shieldMiddleware (C := Unit) (I := Unit) (A := Unit)
      { allowExternalErrors := false, denyErrorCode := some "FORBIDDEN" }
      (.tree []) ⟨(), ["a"], ()⟩ (.error (.errObj "boom")) =
      .error (.orpcError "FORBIDDEN" "boom") ∧
    Raised.pathInfo (.orpcError "FORBIDDEN" "boom") = none := by
  constructor <;> rfl

/-- Claim C4 amended: for a request the rule allowed, a value raised by the
continuation is handled as follows. An `Error` that is not a `ShieldError`
is re-raised unchanged when `allowExternalErrors` is true. Otherwise (the
thrown value is not an `Error` object, or `allowExternalErrors` is false),
its message — string-coerced when the value is not an `Error` — is surfaced
as a `ShieldError` carrying the request path when `denyErrorCode` is unset,
or as an `ORPCError` tagged with the configured code and carrying only the
message when set. A thrown `ShieldError` is always handled as a denial. -/
theorem continuation_error_handling (cfg : ShieldConfig C I) (rules : RuleNode C I)
    (p : RuleParams C I) (t : Thrown)
    (hok : processRuleResult (((findRuleInTree rules p.path).getD cfg.fallbackRule) p)
      p.path = .ok ()) :
    (∀ m, t = .errObj m → cfg.allowExternalErrors = true →
      shieldMiddleware cfg rules p (.error t : Except Thrown A) =
        .error (.passedThrough t)) ∧
    (t.isShieldError = false → (cfg.allowExternalErrors = false ∨ t.isError = false) →
      shieldMiddleware cfg rules p (.error t : Except Thrown A) =
        .error (match cfg.denyErrorCode with
          | some code => .orpcError code t.message
          | none => .shieldError t.message p.path)) ∧
    (∀ m q, t = .shieldError m q →
      shieldMiddleware cfg rules p (.error t : Except Thrown A) =
        .error (match cfg.denyErrorCode with
          | some code => .orpcError code m
          | none => .shieldError m q)) := by
  have hm : shieldMiddleware cfg rules p (.error t : Except Thrown A) =
      .error (handleCatch cfg p.path t) := by
    unfold shieldMiddleware
    rw [hok]
  refine ⟨?_, ?_, ?_⟩
  · intro m ht hae
    subst ht
    rw [hm]
    simp [handleCatch, hae, Thrown.isError]
  · intro hsh hcase
    rw [hm]
    cases t with
    | shieldError m q => simp [Thrown.isShieldError] at hsh
    | errObj m =>
      rcases hcase with hae | hie
      · cases hc : cfg.denyErrorCode <;>
          simp [handleCatch, hae, hc, Thrown.message]
      · simp [Thrown.isError] at hie
    | nonErrVal s =>
      cases hc : cfg.denyErrorCode <;>
        simp [handleCatch, hc, Thrown.isError, Thrown.message]
  · intro m q ht
    subst ht
    rw [hm]
    cases hc : cfg.denyErrorCode <;> simp [handleCatch, hc]

/-- Claim C4 witness: under the default configuration
(`allowExternalErrors = true`), an `Error('boom')` raised by the
continuation of an allowed request is re-raised unchanged. -/
theorem continuation_error_handling_witness :
    shieldMiddleware (C := Unit) (I := Unit) (A := Unit)
      {} (.tree []) ⟨(), ["a"], ()⟩ (.error (.errObj "boom")) =
      .error (.passedThrough (.errObj "boom")) :=
  (continuation_error_handling {} (.tree []) ⟨(), ["a"], ()⟩ (.errObj "boom")
    rfl).1 "boom" rfl rfl

/-- Claim C8: the result interpretation step of the dispatcher: `true`
proceeds (and an allowed request returns the continuation's value
unchanged); `false` raises a denial with the default message
`"Access denied"`; a string raises a denial with that string as its message;
an error-shaped result raises a denial with that error's message; and
end-to-end, a request whose path is absent from the tree under
`fallbackRule = deny` raises the denial `ShieldError('Access denied', path)`. -/
theorem rule_result_interpretation (path : Path) :
    processRuleResult (.bool true) path = .ok () ∧
    processRuleResult (.bool false) path = .error ⟨"Access denied", path⟩ ∧
    (∀ s, processRuleResult (.str s) path = .error ⟨s, path⟩) ∧
    (∀ m, processRuleResult (.err m) path = .error ⟨m, path⟩) ∧
    (∀ (cfg : ShieldConfig C I) (rules : RuleNode C I) (p : RuleParams C I) (a : A),
      processRuleResult (((findRuleInTree rules p.path).getD cfg.fallbackRule) p)
        p.path = .ok () →
      shieldMiddleware cfg rules p (.ok a) = .ok a) ∧
    (∀ (rules : RuleNode C I) (p : RuleParams C I) (next : Except Thrown A),
      findRuleInTree rules p.path = none → p.path = path →
      shieldMiddleware { fallbackRule := deny } rules p next =
        .error (.shieldError "Access denied" path)) := by
  refine ⟨rfl, rfl, fun s => rfl, fun m => rfl, ?_, ?_⟩
  · intro cfg rules p a hok
    unfold shieldMiddleware
    rw [hok]
  · intro rules p next hfind hpath
    subst hpath
    unfold shieldMiddleware
    rw [hfind]
    simp [processRuleResult, deny, handleCatch]

/-- Claim C8 witness: with the empty tree, `fallbackRule = deny`, and request
path `["missing"]`, the middleware raises
`ShieldError('Access denied', ["missing"])`. -/
theorem rule_result_interpretation_witness :
    shieldMiddleware (C := Unit) (I := Unit) (A := Unit)
      { fallbackRule := deny } (.tree []) ⟨(), ["missing"], ()⟩ (.ok ()) =
      .error (.shieldError "Access denied" ["missing"]) :=
  (rule_result_interpretation (C := Unit) (I := Unit) (A := Unit)
    ["missing"]).2.2.2.2.2 (.tree []) ⟨(), ["missing"], ()⟩ (.ok ()) rfl rfl

end OrpcShield
